import Mathlib

/-!
Verification of `kubeconfig-updater` (Go). The repository ships two
implementations of the same tool, concatenated in `main.go`:

* variant `V1` parses the kubeconfig with `yaml.v3` into explicit list-backed
  structs (`KubeConfig`, `NamedCluster`, ...);
* variant `V2` parses it with `client-go`'s `clientcmd` into map-backed
  structs (`api.Config` with `map[string]*Cluster`, ...).

Both are embedded below. Pure logic (lookups, the merge, change reporting,
truncation, the writer's control flow) is translated directly from the source.
Interactive prompts and file I/O are modelled by their data flow: prompt
answers become function parameters, file writes become explicit events.
-/

/-- Truncation of a secret string for reporting, from `shorten` in both
variants: strings of length at most 15 are returned whole, longer ones as the
first five characters, `"..."`, and the last five characters. -/
def shorten (s : String) : String :=
  if s.length ≤ 15 then s
  else ⟨s.data.take 5⟩ ++ "..." ++ ⟨s.data.drop (s.data.length - 5)⟩

/-- Character table of standard base64, used by `base64.StdEncoding`. -/
def b64Char (n : Nat) : Char :=
  "ABCDEFGHIJKLMNOPQRSTUVWXYZabcdefghijklmnopqrstuvwxyz0123456789+/".data.getD n 'A'

/-- Standard base64 encoding of a byte sequence (bytes as `Nat` below 256),
modelling `base64.StdEncoding.EncodeToString`. -/
def base64Encode : List Nat → String
  | [] => ""
  | [a] => ⟨[b64Char (a / 4), b64Char (a % 4 * 16)]⟩ ++ "=="
  | [a, b] => ⟨[b64Char (a / 4), b64Char (a % 4 * 16 + b / 16), b64Char (b % 16 * 4)]⟩ ++ "="
  | a :: b :: c :: rest =>
    (⟨[b64Char (a / 4), b64Char (a % 4 * 16 + b / 16),
       b64Char (b % 16 * 4 + c / 64), b64Char (c % 64)]⟩ : String) ++ base64Encode rest

/-- Truncation of a binary secret for reporting, from `shortenBytes` in
variant V2: empty data renders as the placeholder `"<empty>"`, otherwise the
base64 encoding is truncated exactly like `shorten`. -/
def shortenBytes (data : List Nat) : String :=
  if data = [] then "<empty>"
  else
    let s := base64Encode data
    if s.length ≤ 15 then s
    else ⟨s.data.take 5⟩ ++ "..." ++ ⟨s.data.drop (s.data.length - 5)⟩

/-- Calendar timestamp, standing in for Go's `time.Time` value `time.Now()`. -/
structure DateTime where
  year : Nat
  month : Nat
  day : Nat
  hour : Nat
  minute : Nat
  second : Nat
deriving DecidableEq

/-- Two-digit zero-padded decimal rendering. -/
def pad2 (n : Nat) : String := if n < 10 then "0" ++ toString n else toString n

/-- Four-digit zero-padded decimal rendering. -/
def pad4 (n : Nat) : String :=
  if n < 10 then "000" ++ toString n
  else if n < 100 then "00" ++ toString n
  else if n < 1000 then "0" ++ toString n
  else toString n

/-- Go's `t.Format("20060102")`: the date as `YYYYMMDD`. -/
def formatYYYYMMDD (t : DateTime) : String := pad4 t.year ++ pad2 t.month ++ pad2 t.day

/-- Go's `t.Format(time.RFC3339)`: full timestamp with date separators, a `T`,
and a clock time (zone rendered as UTC `Z`; the zone suffix is irrelevant to
the properties proved here). -/
def formatRFC3339 (t : DateTime) : String :=
  pad4 t.year ++ "-" ++ pad2 t.month ++ "-" ++ pad2 t.day ++ "T" ++
    pad2 t.hour ++ ":" ++ pad2 t.minute ++ ":" ++ pad2 t.second ++ "Z"

/-- Observable side effects of the tail of `main`: terminal output lines and
(attempted) file writes. -/
inductive Event where
  | print (line : String)
  | write (path : String) (contents : String)
deriving DecidableEq

/-- Whether an event is a file write. -/
def eventIsWrite : Event → Bool
  | .write _ _ => true
  | .print _ => false

/-- Whether an event is a file write to the given path. -/
def eventWritesTo (path : String) : Event → Bool
  | .write p _ => p == path
  | .print _ => false

/-- Outcome of resolving an entity inside the pasted document: found directly
by name, or a fallback selection prompt over the given options, or a fatal
resolution error (`os.Exit(1)`). -/
inductive ResolveOutcome (α : Type) where
  | found (x : α)
  | prompt (options : List String)
  | resolutionError
deriving DecidableEq

namespace V1

/-- Cluster payload (`Cluster` struct, yaml variant): server URL and
certificate-authority data, both YAML strings. -/
structure Cluster where
  server : String
  certificateAuthorityData : String
deriving DecidableEq

/-- Named cluster entry of the `clusters` list. -/
structure NamedCluster where
  name : String
  cluster : Cluster
deriving DecidableEq

/-- Context payload: references one cluster name and one user name. -/
structure Context where
  cluster : String
  user : String
deriving DecidableEq

/-- Named context entry of the `contexts` list. -/
structure NamedContext where
  name : String
  context : Context
deriving DecidableEq

/-- User payload: token, client certificate data, client key data. -/
structure User where
  token : String
  clientCertificateData : String
  clientKeyData : String
deriving DecidableEq

/-- Named user entry of the `users` list. -/
structure NamedUser where
  name : String
  user : User
deriving DecidableEq

/-- Top-level kubeconfig document of the yaml variant. -/
structure KubeConfig where
  apiVersion : String
  kind : String
  clusters : List NamedCluster
  contexts : List NamedContext
  users : List NamedUser
  currentContext : String
deriving DecidableEq

/-- One entry of the `changes` slice. Each constructor corresponds to one
`fmt.Sprintf` site of the yaml variant and carries exactly the interpolated
arguments (already truncated where the source applies `shorten`). -/
inductive Change where
  | updatedClusterCA (name oldVal newVal : String)
  | updatedClusterServer (name oldVal newVal : String)
  | addedCluster (name server ca : String)
  | updatedUserToken (name oldVal newVal : String)
  | updatedUserCert (name oldVal newVal : String)
  | updatedUserKey (name oldVal newVal : String)
  | addedUser (name token cert key : String)
deriving DecidableEq

/-- Rendering of Go's `%q` verb (double-quoted); escaping of special
characters inside the name is not needed for any property proved here. -/
def goQuote (s : String) : String := "\"" ++ s ++ "\""

/-- Format strings of the yaml variant's change messages, verbatim. -/
def renderChange : Change → String
  | .updatedClusterCA n o nw =>
    "Updated cluster " ++ goQuote n ++ " certificateAuthorityData from " ++ o ++ " to " ++ nw
  | .updatedClusterServer n o nw =>
    "Updated cluster " ++ goQuote n ++ " server from " ++ o ++ " to " ++ nw
  | .addedCluster n s ca =>
    "Added new cluster " ++ goQuote n ++ " with server " ++ s ++
      " and certificateAuthorityData " ++ ca
  | .updatedUserToken n o nw =>
    "Updated user " ++ goQuote n ++ " token from " ++ o ++ " to " ++ nw
  | .updatedUserCert n o nw =>
    "Updated user " ++ goQuote n ++ " clientCertificateData from " ++ o ++ " to " ++ nw
  | .updatedUserKey n o nw =>
    "Updated user " ++ goQuote n ++ " clientKeyData from " ++ o ++ " to " ++ nw
  | .addedUser n t c k =>
    "Added new user " ++ goQuote n ++ " with token " ++ t ++
      ", clientCertificateData " ++ c ++ ", and clientKeyData " ++ k

/-- First cluster entry with the given name (the `for ... break` search). -/
def lookupCluster : List NamedCluster → String → Option Cluster
  | [], _ => none
  | c :: rest, t => if c.name = t then some c.cluster else lookupCluster rest t

/-- First user entry with the given name (the `for ... break` search). -/
def lookupUser : List NamedUser → String → Option User
  | [], _ => none
  | u :: rest, t => if u.name = t then some u.user else lookupUser rest t

/-- Cluster phase of the merge, lines 333-367 of the yaml variant: walk the
cluster list for the first entry named after the target context's cluster;
if found, report a CA difference, and report and apply a server difference
only under the `newContext || updateServer` gate, then store the pasted CA;
if no entry matches, append a copy of the pasted cluster and report it. -/
def mergeClusters (target : String) (pasted : Cluster) (gate : Bool) :
    List NamedCluster → List NamedCluster × List Change
  | [] =>
    ([⟨target, pasted⟩],
     [.addedCluster target (shorten pasted.server) (shorten pasted.certificateAuthorityData)])
  | c :: rest =>
    if c.name = target then
      let caChanges :=
        if c.cluster.certificateAuthorityData = pasted.certificateAuthorityData then []
        else [Change.updatedClusterCA c.name (shorten c.cluster.certificateAuthorityData)
                (shorten pasted.certificateAuthorityData)]
      let serverChanges :=
        if gate = true ∧ c.cluster.server ≠ pasted.server then
          [Change.updatedClusterServer c.name (shorten c.cluster.server)
            (shorten pasted.server)]
        else []
      let newServer := if gate = true then pasted.server else c.cluster.server
      (⟨c.name, newServer, pasted.certificateAuthorityData⟩ :: rest, caChanges ++ serverChanges)
    else
      let r := mergeClusters target pasted gate rest
      (c :: r.1, r.2)

/-- User phase of the merge, lines 369-402 of the yaml variant: walk the user
list for the first entry named after the target context's user; if found,
report each differing field and store the whole pasted user; if no entry
matches, append a copy of the pasted user and report it. -/
def mergeUsers (target : String) (pasted : User) :
    List NamedUser → List NamedUser × List Change
  | [] =>
    ([⟨target, pasted⟩],
     [.addedUser target (shorten pasted.token) (shorten pasted.clientCertificateData)
        (shorten pasted.clientKeyData)])
  | u :: rest =>
    if u.name = target then
      let tokenChanges :=
        if u.user.token = pasted.token then []
        else [Change.updatedUserToken u.name (shorten u.user.token) (shorten pasted.token)]
      let certChanges :=
        if u.user.clientCertificateData = pasted.clientCertificateData then []
        else [Change.updatedUserCert u.name (shorten u.user.clientCertificateData)
                (shorten pasted.clientCertificateData)]
      let keyChanges :=
        if u.user.clientKeyData = pasted.clientKeyData then []
        else [Change.updatedUserKey u.name (shorten u.user.clientKeyData)
                (shorten pasted.clientKeyData)]
      (⟨u.name, pasted⟩ :: rest, tokenChanges ++ certChanges ++ keyChanges)
    else
      let r := mergeUsers target pasted rest
      (u :: r.1, r.2)

/-- The whole merge engine of the yaml variant (lines 330-402): clusters then
users, with the change list concatenated in that order. `targetClusterName`
and `targetUserName` are the resolved target context's two references; the
server gate is `newContext || updateServer` exactly as in the source. -/
def merge (cfg : KubeConfig) (targetClusterName targetUserName : String)
    (pastedCluster : Cluster) (pastedUser : User) (newContext updateServer : Bool) :
    KubeConfig × List Change :=
  let rc := mergeClusters targetClusterName pastedCluster (newContext || updateServer) cfg.clusters
  let ru := mergeUsers targetUserName pastedUser cfg.users
  ({ cfg with clusters := rc.1, users := ru.1 }, rc.2 ++ ru.2)

/-- Outcome of the target-context selection step (lines 118-162): either the
new-context creation branch ran (returning the extended document and the
appended context, with `newContext = true`), or an existing context was
located, or the lookup failed fatally. -/
inductive TargetOutcome where
  | created (cfg : KubeConfig) (target : NamedContext)
  | selected (cfg : KubeConfig) (target : NamedContext)
  | notFound
deriving DecidableEq

/-- Target-context selection of the yaml variant: the sentinel string
`"new context"` is compared first; only other selections fall through to the
search over existing contexts. -/
def resolveTarget (cfg : KubeConfig)
    (selectedContext newCtxName newClusterName newUserName : String) : TargetOutcome :=
  if selectedContext = "new context" then
    let newCtx : NamedContext := ⟨newCtxName, ⟨newClusterName, newUserName⟩⟩
    .created { cfg with contexts := cfg.contexts ++ [newCtx] } newCtx
  else
    match cfg.contexts.find? (fun c => c.name == selectedContext) with
    | some c => .selected cfg c
    | none => .notFound

/-- Resolution of a pasted context for the resolved cluster name
(lines 249-288): first context whose cluster reference matches wins; on a
miss the fallback options are the pasted contexts with a matching cluster
reference, and an empty option list is a fatal error. -/
def resolvePastedContext (ctxs : List NamedContext) (clusterName : String) :
    ResolveOutcome NamedContext :=
  match ctxs.find? (fun c => c.context.cluster == clusterName) with
  | some c => .found c
  | none =>
    let options := (ctxs.filter (fun c => c.context.cluster == clusterName)).map (·.name)
    if options = [] then .resolutionError else .prompt options

/-- Change reporter (lines 411-419): header, then either the no-change line
or one bulleted line per change, in production order. -/
def reportLines (changes : List Change) : List String :=
  "Summary of changes:" ::
    (if changes = [] then ["No changes made."]
     else changes.map (fun c => "- " ++ renderChange c))

/-- Writer tail of the yaml variant (lines 421-442). In try mode: print the
banner and the serialized document, exit 0, no writes. Otherwise: attempt the
backup write of the original bytes at `<path>.backup.<YYYYMMDD>`; on failure
exit 1 immediately; on success print the notice, attempt the target write of
the serialized document, and exit accordingly. `backupOk` and `targetOk` are
the success of the two `ioutil.WriteFile` calls. -/
def runTail (tryFlag : Bool) (configPath outData origData : String) (now : DateTime)
    (backupOk targetOk : Bool) : List Event × Nat :=
  if tryFlag then
    ([.print "\n---- Updated kubeconfig (try mode) ----", .print outData], 0)
  else
    let backupPath := configPath ++ ".backup." ++ formatYYYYMMDD now
    if backupOk then
      if targetOk then
        ([.write backupPath origData,
          .print ("Backup of original kubeconfig saved as " ++ backupPath),
          .write configPath outData,
          .print ("Kubeconfig updated successfully in " ++ configPath)], 0)
      else
        ([.write backupPath origData,
          .print ("Backup of original kubeconfig saved as " ++ backupPath),
          .write configPath outData], 1)
    else ([.write backupPath origData], 1)

/-- Position of a change's field in the fixed field order the merge engine of
the yaml variant emits: CA before server in the cluster group, then token,
client certificate, client key in the user group. -/
def fieldRank : Change → Nat
  | .updatedClusterCA _ _ _ => 0
  | .updatedClusterServer _ _ _ => 1
  | .addedCluster _ _ _ => 1
  | .updatedUserToken _ _ _ => 2
  | .updatedUserCert _ _ _ => 3
  | .updatedUserKey _ _ _ => 4
  | .addedUser _ _ _ _ => 2

/-- Whether a change entry is a server-URL update. -/
def isServerChange : Change → Bool
  | .updatedClusterServer _ _ _ => true
  | _ => false

/-- Whether a change entry is an added-cluster entry. -/
def isAddedCluster : Change → Bool
  | .addedCluster _ _ _ => true
  | _ => false

/-- Whether a change entry belongs to the user phase. -/
def isUserChange : Change → Bool
  | .updatedUserToken _ _ _ => true
  | .updatedUserCert _ _ _ => true
  | .updatedUserKey _ _ _ => true
  | .addedUser _ _ _ _ => true
  | _ => false

end V1

namespace V2

/-- Cluster payload (`api.Cluster`, clientcmd variant): server URL and
certificate-authority data as raw bytes. -/
structure Cluster where
  server : String
  certificateAuthorityData : List Nat
deriving DecidableEq

/-- Context payload (`api.Context`): one cluster name and one auth-info name. -/
structure Context where
  cluster : String
  authInfo : String
deriving DecidableEq

/-- User payload (`api.AuthInfo`): token plus client certificate and key bytes. -/
structure AuthInfo where
  token : String
  clientCertificateData : List Nat
  clientKeyData : List Nat
deriving DecidableEq

/-- Top-level `api.Config` of the clientcmd variant. Go maps are modelled as
association lists with unique keys; the list order stands in for one map
iteration order. -/
structure Config where
  clusters : List (String × Cluster)
  contexts : List (String × Context)
  authInfos : List (String × AuthInfo)
  currentContext : String
deriving DecidableEq

/-- Go map read `m[k]`: value of the entry with the given key, if any. -/
def mapLookup {α : Type} : List (String × α) → String → Option α
  | [], _ => none
  | p :: rest, k => if p.1 = k then some p.2 else mapLookup rest k

/-- Go map assignment `m[k] = v`: replace the entry with the given key, or
append a new one. This also models in-place mutation through the `*Cluster`
and `*AuthInfo` pointers stored in the maps. -/
def mapInsert {α : Type} : List (String × α) → String → α → List (String × α)
  | [], k, v => [(k, v)]
  | p :: rest, k, v => if p.1 = k then (k, v) :: rest else p :: mapInsert rest k v

/-- One entry of the `changes` slice of the clientcmd variant; constructors
carry the `fmt.Sprintf` arguments (the server URLs are reported untruncated
in this variant, binary fields go through `shortenBytes`, tokens through
`shorten`). -/
inductive Change where
  | updatedClusterServer (name oldVal newVal : String)
  | updatedClusterCA (name oldVal newVal : String)
  | addedCluster (name server ca : String)
  | updatedUserToken (name oldVal newVal : String)
  | updatedUserCert (name oldVal newVal : String)
  | updatedUserKey (name oldVal newVal : String)
  | addedUser (name token cert key : String)
deriving DecidableEq

/-- Format strings of the clientcmd variant's change messages, verbatim. -/
def renderChange : Change → String
  | .updatedClusterServer n o nw =>
    "Updated cluster " ++ V1.goQuote n ++ " server from " ++ o ++ " to " ++ nw
  | .updatedClusterCA n o nw =>
    "Updated cluster " ++ V1.goQuote n ++ " CA data from " ++ o ++ " to " ++ nw
  | .addedCluster n s ca =>
    "Added cluster " ++ V1.goQuote n ++ " with server " ++ s ++ " and CA data " ++ ca
  | .updatedUserToken n o nw =>
    "Updated user " ++ V1.goQuote n ++ " token from " ++ o ++ " to " ++ nw
  | .updatedUserCert n o nw =>
    "Updated user " ++ V1.goQuote n ++ " client cert from " ++ o ++ " to " ++ nw
  | .updatedUserKey n o nw =>
    "Updated user " ++ V1.goQuote n ++ " client key from " ++ o ++ " to " ++ nw
  | .addedUser n t c k =>
    "Added user " ++ V1.goQuote n ++ " with token " ++ t ++ ", client cert " ++ c ++
      ", and client key " ++ k

/-- Cluster block of the clientcmd variant's merge (lines 691-708): if the
target cluster name is mapped, the server is compared, reported and updated
only under the gate (assignment and change entry share one condition in this
variant), then the CA data is compared, reported and updated; otherwise the
pasted cluster is inserted and reported. -/
def mergeClusters (m : List (String × Cluster)) (target : String) (pasted : Cluster)
    (gate : Bool) : List (String × Cluster) × List Change :=
  match mapLookup m target with
  | some existing =>
    let serverDiffers := gate = true ∧ existing.server ≠ pasted.server
    let serverChanges :=
      if serverDiffers then
        [Change.updatedClusterServer target existing.server pasted.server]
      else []
    let server1 := if serverDiffers then pasted.server else existing.server
    let caDiffers := existing.certificateAuthorityData ≠ pasted.certificateAuthorityData
    let caChanges :=
      if caDiffers then
        [Change.updatedClusterCA target
          (shortenBytes existing.certificateAuthorityData)
          (shortenBytes pasted.certificateAuthorityData)]
      else []
    let ca1 :=
      if caDiffers then pasted.certificateAuthorityData
      else existing.certificateAuthorityData
    (mapInsert m target ⟨server1, ca1⟩, serverChanges ++ caChanges)
  | none =>
    (mapInsert m target pasted,
     [Change.addedCluster target pasted.server
        (shortenBytes pasted.certificateAuthorityData)])

/-- User block of the clientcmd variant's merge (lines 710-733). -/
def mergeUsers (m : List (String × AuthInfo)) (target : String) (pasted : AuthInfo) :
    List (String × AuthInfo) × List Change :=
  match mapLookup m target with
  | some existing =>
    let tokenDiffers := existing.token ≠ pasted.token
    let tokenChanges :=
      if tokenDiffers then
        [Change.updatedUserToken target (shorten existing.token) (shorten pasted.token)]
      else []
    let token1 := if tokenDiffers then pasted.token else existing.token
    let certDiffers := existing.clientCertificateData ≠ pasted.clientCertificateData
    let certChanges :=
      if certDiffers then
        [Change.updatedUserCert target
          (shortenBytes existing.clientCertificateData)
          (shortenBytes pasted.clientCertificateData)]
      else []
    let cert1 :=
      if certDiffers then pasted.clientCertificateData else existing.clientCertificateData
    let keyDiffers := existing.clientKeyData ≠ pasted.clientKeyData
    let keyChanges :=
      if keyDiffers then
        [Change.updatedUserKey target (shortenBytes existing.clientKeyData)
          (shortenBytes pasted.clientKeyData)]
      else []
    let key1 := if keyDiffers then pasted.clientKeyData else existing.clientKeyData
    (mapInsert m target ⟨token1, cert1, key1⟩,
     tokenChanges ++ certChanges ++ keyChanges)
  | none =>
    (mapInsert m target pasted,
     [Change.addedUser target (shorten pasted.token)
        (shortenBytes pasted.clientCertificateData)
        (shortenBytes pasted.clientKeyData)])

/-- The whole merge engine of the clientcmd variant: cluster block under the
`updateServer || newContext` gate, then user block, changes concatenated in
that order. -/
def merge (cfg : Config) (targetClusterName targetUserName : String)
    (pastedCluster : Cluster) (pastedUser : AuthInfo) (newContext updateServer : Bool) :
    Config × List Change :=
  let clusterStep := mergeClusters cfg.clusters targetClusterName pastedCluster
    (updateServer || newContext)
  let userStep := mergeUsers cfg.authInfos targetUserName pastedUser
  ({ cfg with clusters := clusterStep.1, authInfos := userStep.1 },
   clusterStep.2 ++ userStep.2)

/-- Outcome of the target-context selection step of the clientcmd variant
(lines 533-571): creation branch, existing selection, or fatal miss. -/
inductive TargetOutcome where
  | created (cfg : Config) (targetName : String)
  | selected (cfg : Config) (targetName : String)
  | notFound
deriving DecidableEq

/-- Target-context selection of the clientcmd variant: the sentinel string
`"new context"` is compared first; creation inserts a context under the newly
entered name. -/
def resolveTarget (cfg : Config)
    (selectedContext newCtxName newClusterName newUserName : String) : TargetOutcome :=
  if selectedContext = "new context" then
    .created { cfg with contexts := mapInsert cfg.contexts newCtxName ⟨newClusterName, newUserName⟩ }
      newCtxName
  else
    match mapLookup cfg.contexts selectedContext with
    | some _ => .selected cfg selectedContext
    | none => .notFound

/-- Resolution of a pasted context for the resolved cluster name
(lines 634-664): the first map entry whose cluster reference matches wins,
a miss being signalled by the empty context name; the fallback options are
the entries with a matching cluster reference, and an empty option list is a
fatal error. -/
def resolvePastedContext (ctxs : List (String × Context)) (clusterName : String) :
    ResolveOutcome String :=
  let name :=
    match ctxs.find? (fun p => p.2.cluster == clusterName) with
    | some p => p.1
    | none => ""
  if name = "" then
    let options := (ctxs.filter (fun p => p.2.cluster == clusterName)).map (·.1)
    if options = [] then .resolutionError else .prompt options
  else .found name

/-- Change reporter of the clientcmd variant (lines 735-743). -/
def reportLines (changes : List Change) : List String :=
  "Summary of changes:" ::
    (if changes = [] then ["No changes made."]
     else changes.map (fun c => "- " ++ renderChange c))

/-- Writer tail of the clientcmd variant (lines 745-775): as in the yaml
variant, but the backup suffix is the `time.RFC3339` rendering of the current
time and the notices differ. -/
def runTail (tryFlag : Bool) (configPath outData origData : String) (now : DateTime)
    (backupOk targetOk : Bool) : List Event × Nat :=
  if tryFlag then
    ([.print "\n---- Updated kubeconfig (try mode) ----", .print outData], 0)
  else
    let backupPath := configPath ++ ".backup." ++ formatRFC3339 now
    if backupOk then
      if targetOk then
        ([.write backupPath origData,
          .print ("Backup saved to " ++ backupPath),
          .write configPath outData,
          .print ("Successfully updated " ++ configPath)], 0)
      else
        ([.write backupPath origData,
          .print ("Backup saved to " ++ backupPath),
          .write configPath outData], 1)
    else ([.write backupPath origData], 1)

/-- Position of a change's field in the fixed field order the merge engine of
the clientcmd variant emits: server before CA in the cluster group, then
token, client certificate, client key in the user group. -/
def fieldRank : Change → Nat
  | .updatedClusterServer _ _ _ => 0
  | .updatedClusterCA _ _ _ => 1
  | .addedCluster _ _ _ => 1
  | .updatedUserToken _ _ _ => 2
  | .updatedUserCert _ _ _ => 3
  | .updatedUserKey _ _ _ => 4
  | .addedUser _ _ _ _ => 2

/-- Field order asserted by the specification (CA before server, then the
user fields); the clientcmd variant's merge does not follow it. -/
def claimedRank : Change → Nat
  | .updatedClusterCA _ _ _ => 0
  | .updatedClusterServer _ _ _ => 1
  | .addedCluster _ _ _ => 1
  | .updatedUserToken _ _ _ => 2
  | .updatedUserCert _ _ _ => 3
  | .updatedUserKey _ _ _ => 4
  | .addedUser _ _ _ _ => 2

/-- Whether a change entry is a server-URL update. -/
def isServerChange : Change → Bool
  | .updatedClusterServer _ _ _ => true
  | _ => false

/-- Whether a change entry is an added-cluster entry. -/
def isAddedCluster : Change → Bool
  | .addedCluster _ _ _ => true
  | _ => false

/-- Whether a change entry belongs to the user phase. -/
def isUserChange : Change → Bool
  | .updatedUserToken _ _ _ => true
  | .updatedUserCert _ _ _ => true
  | .updatedUserKey _ _ _ => true
  | .addedUser _ _ _ _ => true
  | _ => false

end V2

namespace V1

/-- The cluster phase does not touch entries named differently from the
target cluster name. -/
theorem mergeClusters_frame (t : String) (p : Cluster) (g : Bool) :
    ∀ cs : List NamedCluster,
      ((mergeClusters t p g cs).1).filter (fun c => c.name != t) =
        cs.filter (fun c => c.name != t) := by
  intro cs
  induction cs with
  | nil => simp [mergeClusters]
  | cons c rest ih =>
    by_cases h : c.name = t
    · simp [mergeClusters, h]
    · simp [mergeClusters, h, ih]

/-- The user phase does not touch entries named differently from the target
user name. -/
theorem mergeUsers_frame (t : String) (p : User) :
    ∀ us : List NamedUser,
      ((mergeUsers t p us).1).filter (fun u => u.name != t) =
        us.filter (fun u => u.name != t) := by
  intro us
  induction us with
  | nil => simp [mergeUsers]
  | cons u rest ih =>
    by_cases h : u.name = t
    · simp [mergeUsers, h]
    · simp [mergeUsers, h, ih]

/-- Cluster phase on a miss: the pasted cluster is appended verbatim and one
added-cluster entry is reported. -/
theorem mergeClusters_notFound (t : String) (p : Cluster) (g : Bool) :
    ∀ cs : List NamedCluster, lookupCluster cs t = none →
      mergeClusters t p g cs =
        (cs ++ [⟨t, p⟩],
         [.addedCluster t (shorten p.server) (shorten p.certificateAuthorityData)]) := by
  intro cs
  induction cs with
  | nil => intro _; simp [mergeClusters]
  | cons c rest ih =>
    intro h
    by_cases hc : c.name = t
    · simp [lookupCluster, hc] at h
    · simp only [lookupCluster, if_neg hc] at h
      simp [mergeClusters, hc, ih h]

/-- Cluster phase on a hit: the change entries and the stored cluster value,
in terms of the previously stored cluster. -/
theorem mergeClusters_found (t : String) (p : Cluster) (g : Bool) :
    ∀ (cs : List NamedCluster) (cl : Cluster), lookupCluster cs t = some cl →
      (mergeClusters t p g cs).2 =
        (if cl.certificateAuthorityData = p.certificateAuthorityData then []
         else [Change.updatedClusterCA t (shorten cl.certificateAuthorityData)
                 (shorten p.certificateAuthorityData)]) ++
        (if g = true ∧ cl.server ≠ p.server then
           [Change.updatedClusterServer t (shorten cl.server) (shorten p.server)]
         else []) ∧
      lookupCluster (mergeClusters t p g cs).1 t =
        some ⟨(if g = true then p.server else cl.server), p.certificateAuthorityData⟩ := by
  intro cs
  induction cs with
  | nil => intro cl h; simp [lookupCluster] at h
  | cons c rest ih =>
    intro cl h
    by_cases hc : c.name = t
    · simp only [lookupCluster, if_pos hc, Option.some.injEq] at h
      subst h
      constructor
      · simp [mergeClusters, hc]
      · simp [mergeClusters, lookupCluster, hc]
    · simp only [lookupCluster, if_neg hc] at h
      obtain ⟨h1, h2⟩ := ih cl h
      constructor
      · simp [mergeClusters, hc, h1]
      · simp [mergeClusters, lookupCluster, hc, h2]

/-- Rerunning the cluster phase on its own output changes nothing and
reports nothing. -/
theorem mergeClusters_idem (t : String) (p : Cluster) (g : Bool) :
    ∀ cs : List NamedCluster,
      mergeClusters t p g (mergeClusters t p g cs).1 = ((mergeClusters t p g cs).1, []) := by
  intro cs
  induction cs with
  | nil => by_cases hg : g = true <;> simp [mergeClusters, hg]
  | cons c rest ih =>
    by_cases hc : c.name = t
    · by_cases hg : g = true <;> simp [mergeClusters, hc, hg]
    · simp [mergeClusters, hc, ih]

/-- User phase on a miss: the pasted user is appended verbatim and one
added-user entry is reported. -/
theorem mergeUsers_notFound (t : String) (p : User) :
    ∀ us : List NamedUser, lookupUser us t = none →
      mergeUsers t p us =
        (us ++ [⟨t, p⟩],
         [.addedUser t (shorten p.token) (shorten p.clientCertificateData)
            (shorten p.clientKeyData)]) := by
  intro us
  induction us with
  | nil => intro _; simp [mergeUsers]
  | cons u rest ih =>
    intro h
    by_cases hu : u.name = t
    · simp [lookupUser, hu] at h
    · simp only [lookupUser, if_neg hu] at h
      simp [mergeUsers, hu, ih h]

/-- Rerunning the user phase on its own output changes nothing and reports
nothing. -/
theorem mergeUsers_idem (t : String) (p : User) :
    ∀ us : List NamedUser,
      mergeUsers t p (mergeUsers t p us).1 = ((mergeUsers t p us).1, []) := by
  intro us
  induction us with
  | nil => simp [mergeUsers]
  | cons u rest ih =>
    by_cases hu : u.name = t
    · simp [mergeUsers, hu]
    · simp [mergeUsers, hu, ih]

/-- After the user phase, the target user entry stores the whole pasted user,
untruncated. -/
theorem mergeUsers_stored (t : String) (p : User) :
    ∀ us : List NamedUser, lookupUser (mergeUsers t p us).1 t = some p := by
  intro us
  induction us with
  | nil => simp [mergeUsers, lookupUser]
  | cons u rest ih =>
    by_cases hu : u.name = t
    · simp [mergeUsers, lookupUser, hu]
    · simp [mergeUsers, lookupUser, hu, ih]

/-- After the cluster phase, the target cluster entry stores the pasted CA
data, untruncated. -/
theorem mergeClusters_storedCA (t : String) (p : Cluster) (g : Bool) :
    ∀ cs : List NamedCluster, ∃ srv,
      lookupCluster (mergeClusters t p g cs).1 t = some ⟨srv, p.certificateAuthorityData⟩ := by
  intro cs
  induction cs with
  | nil => exact ⟨p.server, by simp [mergeClusters, lookupCluster]⟩
  | cons c rest ih =>
    by_cases hc : c.name = t
    · exact ⟨if g = true then p.server else c.cluster.server,
        by simp [mergeClusters, lookupCluster, hc]⟩
    · obtain ⟨srv, hsrv⟩ := ih
      exact ⟨srv, by simp [mergeClusters, lookupCluster, hc, hsrv]⟩

/-- Every change entry reported by the user phase is a user change. -/
theorem mergeUsers_userChange (t : String) (p : User) :
    ∀ (us : List NamedUser) (c : Change), c ∈ (mergeUsers t p us).2 →
      isUserChange c = true := by
  intro us
  induction us with
  | nil =>
    intro c hmem
    simp [mergeUsers] at hmem
    simp [hmem, isUserChange]
  | cons u rest ih =>
    intro c hmem
    by_cases hu : u.name = t
    · simp [mergeUsers, hu] at hmem
      rcases hmem with ⟨_, rfl⟩ | ⟨_, rfl⟩ | ⟨_, rfl⟩ <;> simp [isUserChange]
    · simp only [mergeUsers, if_neg hu] at hmem
      exact ih c hmem

/-- Ranks of the cluster-phase changes are sorted and bounded by the cluster
group. -/
theorem mergeClusters_rank (t : String) (p : Cluster) (g : Bool) :
    ∀ cs : List NamedCluster,
      List.Pairwise (· ≤ ·) (((mergeClusters t p g cs).2).map fieldRank) ∧
      ∀ n ∈ ((mergeClusters t p g cs).2).map fieldRank, n ≤ 1 := by
  intro cs
  induction cs with
  | nil => simp [mergeClusters, fieldRank]
  | cons c rest ih =>
    by_cases hc : c.name = t
    · simp only [mergeClusters, if_pos hc]
      split_ifs <;> simp [fieldRank]
    · simp only [mergeClusters, if_neg hc]
      exact ih

/-- Ranks of the user-phase changes are sorted and sit above the cluster
group. -/
theorem mergeUsers_rank (t : String) (p : User) :
    ∀ us : List NamedUser,
      List.Pairwise (· ≤ ·) (((mergeUsers t p us).2).map fieldRank) ∧
      ∀ n ∈ ((mergeUsers t p us).2).map fieldRank, 2 ≤ n := by
  intro us
  induction us with
  | nil => simp [mergeUsers, fieldRank]
  | cons u rest ih =>
    by_cases hu : u.name = t
    · simp only [mergeUsers, if_pos hu]
      split_ifs <;> simp [fieldRank]
    · simp only [mergeUsers, if_neg hu]
      exact ih

/-- The full change list of the yaml variant's merge is sorted by field
rank: cluster changes (CA before server) before user changes (token, client
certificate, client key). -/
theorem merge_rank (cfg : KubeConfig) (tc tu : String) (pc : Cluster) (pu : User)
    (nc us : Bool) :
    List.Pairwise (· ≤ ·) (((merge cfg tc tu pc pu nc us).2).map fieldRank) := by
  have hcl := mergeClusters_rank tc pc (nc || us) cfg.clusters
  have hus := mergeUsers_rank tu pu cfg.users
  simp only [merge, List.map_append]
  refine List.pairwise_append.2 ⟨hcl.1, hus.1, ?_⟩
  intro a ha b hb
  have h1 := hcl.2 a ha
  have h2 := hus.2 b hb
  omega

end V1

namespace V2

/-- Reading back the key just written returns the written value. -/
theorem mapLookup_insert_self {α : Type} (m : List (String × α)) (k : String) (v : α) :
    mapLookup (mapInsert m k v) k = some v := by
  induction m with
  | nil => simp [mapInsert, mapLookup]
  | cons p rest ih =>
    by_cases h : p.1 = k
    · simp [mapInsert, mapLookup, h]
    · simp [mapInsert, mapLookup, h, ih]

/-- Map assignment leaves all other keys untouched. -/
theorem mapInsert_frame {α : Type} (m : List (String × α)) (k : String) (v : α) :
    (mapInsert m k v).filter (fun p => p.1 != k) = m.filter (fun p => p.1 != k) := by
  induction m with
  | nil => simp [mapInsert]
  | cons p rest ih =>
    by_cases h : p.1 = k
    · simp [mapInsert, h]
    · simp [mapInsert, h, ih]

/-- Assigning an absent key appends the new entry. -/
theorem mapInsert_append {α : Type} (m : List (String × α)) (k : String) (v : α)
    (h : mapLookup m k = none) : mapInsert m k v = m ++ [(k, v)] := by
  induction m with
  | nil => simp [mapInsert]
  | cons p rest ih =>
    by_cases hp : p.1 = k
    · simp [mapLookup, hp] at h
    · simp only [mapLookup, if_neg hp] at h
      simp [mapInsert, hp, ih h]

/-- Re-assigning the value already present changes nothing further. -/
theorem mapInsert_idem {α : Type} (m : List (String × α)) (k : String) (v : α) :
    mapInsert (mapInsert m k v) k v = mapInsert m k v := by
  induction m with
  | nil => simp [mapInsert]
  | cons p rest ih =>
    by_cases h : p.1 = k
    · simp [mapInsert, h]
    · simp [mapInsert, h, ih]

/-- Cluster block on a miss: the pasted cluster is appended verbatim and one
added-cluster entry is reported. -/
theorem clusterMap_notFound (m : List (String × Cluster)) (t : String) (p : Cluster)
    (g : Bool) (h : mapLookup m t = none) :
    mergeClusters m t p g =
      (m ++ [(t, p)],
       [.addedCluster t p.server (shortenBytes p.certificateAuthorityData)]) := by
  simp [mergeClusters, h, mapInsert_append m t p h]

/-- Cluster block on a hit: the change entries, server first. -/
theorem clusterMap_found_changes (m : List (String × Cluster)) (t : String) (p : Cluster)
    (g : Bool) (ex : Cluster) (h : mapLookup m t = some ex) :
    (mergeClusters m t p g).2 =
      (if g = true ∧ ex.server ≠ p.server then
         [Change.updatedClusterServer t ex.server p.server]
       else []) ++
      (if ex.certificateAuthorityData ≠ p.certificateAuthorityData then
         [Change.updatedClusterCA t (shortenBytes ex.certificateAuthorityData)
            (shortenBytes p.certificateAuthorityData)]
       else []) := by
  simp [mergeClusters, h]

/-- Cluster block on a hit: the stored cluster afterwards has the pasted CA
data and a server gated by `updateServer || newContext`. -/
theorem clusterMap_found_lookup (m : List (String × Cluster)) (t : String) (p : Cluster)
    (g : Bool) (ex : Cluster) (h : mapLookup m t = some ex) :
    mapLookup (mergeClusters m t p g).1 t =
      some ⟨if g = true then p.server else ex.server, p.certificateAuthorityData⟩ := by
  simp only [mergeClusters, h]
  rw [mapLookup_insert_self]
  congr 1
  by_cases hg : g = true
  · by_cases hs : ex.server = p.server
    · by_cases hca : ex.certificateAuthorityData = p.certificateAuthorityData <;>
        simp [hg, hs, hca]
    · by_cases hca : ex.certificateAuthorityData = p.certificateAuthorityData <;>
        simp [hg, hs, hca]
  · by_cases hca : ex.certificateAuthorityData = p.certificateAuthorityData <;>
      simp [hg, hca]

/-- The cluster block does not touch entries keyed differently from the
target cluster name. -/
theorem clusterMap_frame (m : List (String × Cluster)) (t : String) (p : Cluster)
    (g : Bool) :
    ((mergeClusters m t p g).1).filter (fun q => q.1 != t) = m.filter (fun q => q.1 != t) := by
  rcases h : mapLookup m t with _ | ex <;> simp [mergeClusters, h, mapInsert_frame]

/-- After the cluster block, the target entry stores the pasted CA data,
untruncated. -/
theorem clusterMap_storedCA (m : List (String × Cluster)) (t : String) (p : Cluster)
    (g : Bool) :
    ∃ srv, mapLookup (mergeClusters m t p g).1 t = some ⟨srv, p.certificateAuthorityData⟩ := by
  rcases h : mapLookup m t with _ | ex
  · refine ⟨p.server, ?_⟩
    simp only [mergeClusters, h]
    exact mapLookup_insert_self m t p
  · exact ⟨if g = true then p.server else ex.server, clusterMap_found_lookup m t p g ex h⟩

/-- Rerunning the cluster block on its own output changes nothing and
reports nothing. -/
theorem clusterMap_idem (m : List (String × Cluster)) (t : String) (p : Cluster)
    (g : Bool) :
    mergeClusters (mergeClusters m t p g).1 t p g = ((mergeClusters m t p g).1, []) := by
  rcases h : mapLookup m t with _ | ex
  · simp only [mergeClusters, h]
    simp only [mergeClusters, mapLookup_insert_self]
    simp [mapInsert_idem]
  · simp only [mergeClusters, h]
    simp only [mergeClusters, mapLookup_insert_self]
    by_cases hg : g = true
    · by_cases hs : ex.server = p.server
      · by_cases hca : ex.certificateAuthorityData = p.certificateAuthorityData <;>
          simp [hg, hs, hca, mapInsert_idem]
      · by_cases hca : ex.certificateAuthorityData = p.certificateAuthorityData <;>
          simp [hg, hs, hca, mapInsert_idem]
    · by_cases hca : ex.certificateAuthorityData = p.certificateAuthorityData <;>
        simp [hg, hca, mapInsert_idem]

/-- User block on a miss: the pasted user is appended verbatim and one
added-user entry is reported. -/
theorem userMap_notFound (m : List (String × AuthInfo)) (t : String) (p : AuthInfo)
    (h : mapLookup m t = none) :
    mergeUsers m t p =
      (m ++ [(t, p)],
       [.addedUser t (shorten p.token) (shortenBytes p.clientCertificateData)
          (shortenBytes p.clientKeyData)]) := by
  simp [mergeUsers, h, mapInsert_append m t p h]

/-- After the user block, the target entry stores the whole pasted user,
untruncated. -/
theorem userMap_stored (m : List (String × AuthInfo)) (t : String) (p : AuthInfo) :
    mapLookup (mergeUsers m t p).1 t = some p := by
  rcases h : mapLookup m t with _ | ex
  · simp only [mergeUsers, h]
    exact mapLookup_insert_self m t p
  · simp only [mergeUsers, h]
    rw [mapLookup_insert_self]
    congr 1
    by_cases ht : ex.token = p.token <;>
      by_cases hc : ex.clientCertificateData = p.clientCertificateData <;>
        by_cases hk : ex.clientKeyData = p.clientKeyData <;>
          simp [ht, hc, hk]

/-- The user block does not touch entries keyed differently from the target
user name. -/
theorem userMap_frame (m : List (String × AuthInfo)) (t : String) (p : AuthInfo) :
    ((mergeUsers m t p).1).filter (fun q => q.1 != t) = m.filter (fun q => q.1 != t) := by
  rcases h : mapLookup m t with _ | ex <;> simp [mergeUsers, h, mapInsert_frame]

/-- Rerunning the user block on its own output changes nothing and reports
nothing. -/
theorem userMap_idem (m : List (String × AuthInfo)) (t : String) (p : AuthInfo) :
    mergeUsers (mergeUsers m t p).1 t p = ((mergeUsers m t p).1, []) := by
  rcases h : mapLookup m t with _ | ex
  · simp only [mergeUsers, h]
    simp only [mergeUsers, mapLookup_insert_self]
    simp [mapInsert_idem]
  · simp only [mergeUsers, h]
    simp only [mergeUsers, mapLookup_insert_self]
    by_cases ht : ex.token = p.token <;>
      by_cases hc : ex.clientCertificateData = p.clientCertificateData <;>
        by_cases hk : ex.clientKeyData = p.clientKeyData <;>
          simp [ht, hc, hk, mapInsert_idem]

/-- Every change entry reported by the user block is a user change. -/
theorem userMap_userChange (m : List (String × AuthInfo)) (t : String) (p : AuthInfo) :
    ∀ c ∈ (mergeUsers m t p).2, isUserChange c = true := by
  intro c hmem
  rcases h : mapLookup m t with _ | ex
  · simp [mergeUsers, h] at hmem
    simp [hmem, isUserChange]
  · simp [mergeUsers, h] at hmem
    rcases hmem with ⟨_, rfl⟩ | ⟨_, rfl⟩ | ⟨_, rfl⟩ <;> simp [isUserChange]

/-- Ranks of the cluster-block changes are sorted (server before CA) and
bounded by the cluster group. -/
theorem clusterMap_rank (m : List (String × Cluster)) (t : String) (p : Cluster)
    (g : Bool) :
    List.Pairwise (· ≤ ·) (((mergeClusters m t p g).2).map fieldRank) ∧
    ∀ n ∈ ((mergeClusters m t p g).2).map fieldRank, n ≤ 1 := by
  rcases h : mapLookup m t with _ | ex
  · simp [mergeClusters, h, fieldRank]
  · simp only [mergeClusters, h]
    split_ifs <;> simp [fieldRank]

/-- Ranks of the user-block changes are sorted and sit above the cluster
group. -/
theorem userMap_rank (m : List (String × AuthInfo)) (t : String) (p : AuthInfo) :
    List.Pairwise (· ≤ ·) (((mergeUsers m t p).2).map fieldRank) ∧
    ∀ n ∈ ((mergeUsers m t p).2).map fieldRank, 2 ≤ n := by
  rcases h : mapLookup m t with _ | ex
  · simp [mergeUsers, h, fieldRank]
  · simp only [mergeUsers, h]
    split_ifs <;> simp [fieldRank]

/-- The full change list of the clientcmd variant's merge is sorted by its
field rank: cluster changes (server before CA) before user changes (token,
client certificate, client key). -/
theorem mergeMap_rank (cfg : Config) (tc tu : String) (pc : Cluster) (pu : AuthInfo)
    (nc us : Bool) :
    List.Pairwise (· ≤ ·) (((merge cfg tc tu pc pu nc us).2).map fieldRank) := by
  have hcl := clusterMap_rank cfg.clusters tc pc (us || nc)
  have hus := userMap_rank cfg.authInfos tu pu
  simp only [merge, List.map_append]
  refine List.pairwise_append.2 ⟨hcl.1, hus.1, ?_⟩
  intro a ha b hb
  have h1 := hcl.2 a ha
  have h2 := hus.2 b hb
  omega

end V2

/-- A backup path (the config path plus a nonempty suffix) never equals the
config path itself. -/
theorem backupPath_ne (cp suffix : String) : ((cp ++ ".backup." ++ suffix) == cp) = false := by
  rw [beq_eq_false_iff_ne]
  intro h
  have hlen := congrArg String.length h
  rw [String.length_append, String.length_append] at hlen
  have h8 : ".backup.".length = 8 := rfl
  omega

/-- Claim C1: the merge engine leaves every cluster entry named differently
from the target context's cluster name, every user entry named differently
from the target context's user name, every context entry, and the
current-context marker exactly as they were, in both variants. -/
theorem claim1_merge_frame :
    (∀ (cfg : V1.KubeConfig) (tc tu : String) (pc : V1.Cluster) (pu : V1.User) (nc us : Bool),
      ((V1.merge cfg tc tu pc pu nc us).1).clusters.filter (fun c => c.name != tc) =
        cfg.clusters.filter (fun c => c.name != tc) ∧
      ((V1.merge cfg tc tu pc pu nc us).1).users.filter (fun u => u.name != tu) =
        cfg.users.filter (fun u => u.name != tu) ∧
      ((V1.merge cfg tc tu pc pu nc us).1).contexts = cfg.contexts ∧
      ((V1.merge cfg tc tu pc pu nc us).1).currentContext = cfg.currentContext) ∧
    (∀ (cfg : V2.Config) (tc tu : String) (pc : V2.Cluster) (pu : V2.AuthInfo) (nc us : Bool),
      ((V2.merge cfg tc tu pc pu nc us).1).clusters.filter (fun q => q.1 != tc) =
        cfg.clusters.filter (fun q => q.1 != tc) ∧
      ((V2.merge cfg tc tu pc pu nc us).1).authInfos.filter (fun q => q.1 != tu) =
        cfg.authInfos.filter (fun q => q.1 != tu) ∧
      ((V2.merge cfg tc tu pc pu nc us).1).contexts = cfg.contexts ∧
      ((V2.merge cfg tc tu pc pu nc us).1).currentContext = cfg.currentContext) := by
  constructor
  · intro cfg tc tu pc pu nc us
    exact ⟨V1.mergeClusters_frame tc pc (nc || us) cfg.clusters,
      V1.mergeUsers_frame tu pu cfg.users, rfl, rfl⟩
  · intro cfg tc tu pc pu nc us
    exact ⟨V2.clusterMap_frame cfg.clusters tc pc (us || nc),
      V2.userMap_frame cfg.authInfos tu pu, rfl, rfl⟩

/-- Claim C5: rerunning the merge on its own output with the same pasted
entities, the same target references and the same answers reports no change,
in both variants. -/
theorem claim5_merge_idempotent :
    (∀ (cfg : V1.KubeConfig) (tc tu : String) (pc : V1.Cluster) (pu : V1.User) (nc us : Bool),
      (V1.merge (V1.merge cfg tc tu pc pu nc us).1 tc tu pc pu nc us).2 = []) ∧
    (∀ (cfg : V2.Config) (tc tu : String) (pc : V2.Cluster) (pu : V2.AuthInfo) (nc us : Bool),
      (V2.merge (V2.merge cfg tc tu pc pu nc us).1 tc tu pc pu nc us).2 = []) := by
  constructor
  · intro cfg tc tu pc pu nc us
    simp only [V1.merge]
    rw [V1.mergeClusters_idem tc pc (nc || us) cfg.clusters,
      V1.mergeUsers_idem tu pu cfg.users]
    rfl
  · intro cfg tc tu pc pu nc us
    simp only [V2.merge]
    rw [V2.clusterMap_idem cfg.clusters tc pc (us || nc),
      V2.userMap_idem cfg.authInfos tu pu]
    rfl

/-- Claim C4: with the try flag set, both variants print the banner and the
serialized mutated document, perform no file write whatsoever, and exit 0. -/
theorem claim4_try_mode :
    ∀ (configPath outData origData : String) (now : DateTime) (backupOk targetOk : Bool),
      V1.runTail true configPath outData origData now backupOk targetOk =
        ([.print "\n---- Updated kubeconfig (try mode) ----", .print outData], 0) ∧
      (V1.runTail true configPath outData origData now backupOk targetOk).1.filter
        eventIsWrite = [] ∧
      V2.runTail true configPath outData origData now backupOk targetOk =
        ([.print "\n---- Updated kubeconfig (try mode) ----", .print outData], 0) ∧
      (V2.runTail true configPath outData origData now backupOk targetOk).1.filter
        eventIsWrite = [] := by
  intro configPath outData origData now backupOk targetOk
  exact ⟨rfl, rfl, rfl, rfl⟩

/-- Claim C3 (amended): in apply mode both variants first attempt to write the
exact original bytes — never the re-serialized document — to the backup path,
and if that write fails they stop with exit code 1 without ever writing the
target path. The backup path is the config path plus `.backup.` plus a
date stamp, which is `YYYYMMDD` in the yaml variant but the full RFC 3339
timestamp in the clientcmd variant. -/
theorem claim3_backup_write :
    ∀ (configPath outData origData : String) (now : DateTime) (targetOk : Bool),
      (∀ backupOk, (V1.runTail false configPath outData origData now backupOk targetOk).1.head? =
        some (.write (configPath ++ ".backup." ++ formatYYYYMMDD now) origData)) ∧
      V1.runTail false configPath outData origData now false targetOk =
        ([.write (configPath ++ ".backup." ++ formatYYYYMMDD now) origData], 1) ∧
      (V1.runTail false configPath outData origData now false targetOk).1.filter
        (eventWritesTo configPath) = [] ∧
      (∀ backupOk, (V2.runTail false configPath outData origData now backupOk targetOk).1.head? =
        some (.write (configPath ++ ".backup." ++ formatRFC3339 now) origData)) ∧
      V2.runTail false configPath outData origData now false targetOk =
        ([.write (configPath ++ ".backup." ++ formatRFC3339 now) origData], 1) ∧
      (V2.runTail false configPath outData origData now false targetOk).1.filter
        (eventWritesTo configPath) = [] := by
  intro configPath outData origData now targetOk
  refine ⟨?_, rfl, ?_, ?_, rfl, ?_⟩
  · intro b; cases b <;> cases targetOk <;> rfl
  · simp [V1.runTail, eventWritesTo, backupPath_ne]
  · intro b; cases b <;> cases targetOk <;> rfl
  · simp [V2.runTail, eventWritesTo, backupPath_ne]

/-- Claim C3 counterexample: in the clientcmd variant the backup path suffix
is the RFC 3339 timestamp, not `YYYYMMDD` as the claim states — at a concrete
date the attempted backup write goes to `cfg.backup.2026-10-12T03:04:05Z`,
which differs from `cfg.backup.20261012`. -/
theorem claim3_backup_suffix_counterexample :
    (V2.runTail false "cfg" "out" "orig" ⟨2026, 10, 12, 3, 4, 5⟩ false true).1 =
      [.write "cfg.backup.2026-10-12T03:04:05Z" "orig"] ∧
    "cfg.backup.2026-10-12T03:04:05Z" ≠
      "cfg" ++ ".backup." ++ formatYYYYMMDD ⟨2026, 10, 12, 3, 4, 5⟩ := by
  exact ⟨by decide, by decide⟩

/-- Claim C2: in both variants, when the target cluster already exists on
disk, its stored server URL is overwritten exactly when the context is newly
created or `updateServer` was confirmed, and a server change entry appears
exactly when additionally the pasted server URL differs; with the gate off
the stored server URL keeps its pre-run value and no server change entry is
emitted. -/
theorem claim2_server_url_gating :
    (∀ (cfg : V1.KubeConfig) (tc tu : String) (pc : V1.Cluster) (pu : V1.User) (nc us : Bool)
       (cl : V1.Cluster), V1.lookupCluster cfg.clusters tc = some cl →
      V1.lookupCluster ((V1.merge cfg tc tu pc pu nc us).1).clusters tc =
        some ⟨if (nc || us) = true then pc.server else cl.server,
              pc.certificateAuthorityData⟩ ∧
      ((V1.merge cfg tc tu pc pu nc us).2).filter V1.isServerChange =
        (if (nc || us) = true ∧ cl.server ≠ pc.server then
          [V1.Change.updatedClusterServer tc (shorten cl.server) (shorten pc.server)]
         else [])) ∧
    (∀ (cfg : V2.Config) (tc tu : String) (pc : V2.Cluster) (pu : V2.AuthInfo) (nc us : Bool)
       (ex : V2.Cluster), V2.mapLookup cfg.clusters tc = some ex →
      V2.mapLookup ((V2.merge cfg tc tu pc pu nc us).1).clusters tc =
        some ⟨if (us || nc) = true then pc.server else ex.server,
              pc.certificateAuthorityData⟩ ∧
      ((V2.merge cfg tc tu pc pu nc us).2).filter V2.isServerChange =
        (if (us || nc) = true ∧ ex.server ≠ pc.server then
          [V2.Change.updatedClusterServer tc ex.server pc.server]
         else [])) := by
  constructor
  · intro cfg tc tu pc pu nc us cl h
    obtain ⟨hch, hlk⟩ := V1.mergeClusters_found tc pc (nc || us) cfg.clusters cl h
    constructor
    · simpa only [V1.merge] using hlk
    · have hu : (V1.mergeUsers tu pu cfg.users).2.filter V1.isServerChange = [] := by
        rw [List.filter_eq_nil_iff]
        intro c hc
        have huser := V1.mergeUsers_userChange tu pu cfg.users c hc
        cases c <;> simp_all [V1.isUserChange, V1.isServerChange]
      simp only [V1.merge, List.filter_append, hu, List.append_nil, hch]
      by_cases hca : cl.certificateAuthorityData = pc.certificateAuthorityData <;>
        by_cases hsv : (nc || us) = true ∧ cl.server ≠ pc.server <;>
          simp [hca, hsv, V1.isServerChange] <;>
            (intro a h1 h2 ha; subst ha; rfl)
  · intro cfg tc tu pc pu nc us ex h
    have hch := V2.clusterMap_found_changes cfg.clusters tc pc (us || nc) ex h
    have hlk := V2.clusterMap_found_lookup cfg.clusters tc pc (us || nc) ex h
    constructor
    · simpa only [V2.merge] using hlk
    · have hu : (V2.mergeUsers cfg.authInfos tu pu).2.filter V2.isServerChange = [] := by
        rw [List.filter_eq_nil_iff]
        intro c hc
        have huser := V2.userMap_userChange cfg.authInfos tu pu c hc
        cases c <;> simp_all [V2.isUserChange, V2.isServerChange]
      simp only [V2.merge, List.filter_append, hu, List.append_nil, hch]
      by_cases hca : ex.certificateAuthorityData = pc.certificateAuthorityData <;>
        by_cases hsv : (us || nc) = true ∧ ex.server ≠ pc.server <;>
          simp [hca, hsv, V2.isServerChange] <;>
            (intro a h1 h2 ha; subst ha; rfl)

/-- Witness for claim C2 at concrete inputs: an existing cluster with a
differing pasted server URL, once with the gate on (updated, one entry) and
once with the gate off (kept, no entry), in both variants. -/
theorem claim2_server_url_gating_witness :
    (V1.lookupCluster ((V1.merge ⟨"v1", "Config", [⟨"c", ⟨"s1", "CA1"⟩⟩], [], [], ""⟩
        "c" "u" ⟨"s2", "CA1"⟩ ⟨"t", "", ""⟩ false true).1).clusters "c" =
      some ⟨"s2", "CA1"⟩) ∧
    (V1.merge ⟨"v1", "Config", [⟨"c", ⟨"s1", "CA1"⟩⟩], [], [], ""⟩
        "c" "u" ⟨"s2", "CA1"⟩ ⟨"t", "", ""⟩ false true).2.filter V1.isServerChange =
      [V1.Change.updatedClusterServer "c" "s1" "s2"] ∧
    (V1.lookupCluster ((V1.merge ⟨"v1", "Config", [⟨"c", ⟨"s1", "CA1"⟩⟩], [], [], ""⟩
        "c" "u" ⟨"s2", "CA1"⟩ ⟨"t", "", ""⟩ false false).1).clusters "c" =
      some ⟨"s1", "CA1"⟩) ∧
    (V1.merge ⟨"v1", "Config", [⟨"c", ⟨"s1", "CA1"⟩⟩], [], [], ""⟩
        "c" "u" ⟨"s2", "CA1"⟩ ⟨"t", "", ""⟩ false false).2.filter V1.isServerChange = [] ∧
    (V2.mapLookup ((V2.merge ⟨[("c", ⟨"s1", [7]⟩)], [], [], ""⟩
        "c" "u" ⟨"s2", [7]⟩ ⟨"t", [], []⟩ false true).1).clusters "c" =
      some ⟨"s2", [7]⟩) ∧
    (V2.merge ⟨[("c", ⟨"s1", [7]⟩)], [], [], ""⟩
        "c" "u" ⟨"s2", [7]⟩ ⟨"t", [], []⟩ false true).2.filter V2.isServerChange =
      [V2.Change.updatedClusterServer "c" "s1" "s2"] := by
  have h1 := claim2_server_url_gating.1 ⟨"v1", "Config", [⟨"c", ⟨"s1", "CA1"⟩⟩], [], [], ""⟩
    "c" "u" ⟨"s2", "CA1"⟩ ⟨"t", "", ""⟩ false true ⟨"s1", "CA1"⟩ (by decide)
  have h2 := claim2_server_url_gating.1 ⟨"v1", "Config", [⟨"c", ⟨"s1", "CA1"⟩⟩], [], [], ""⟩
    "c" "u" ⟨"s2", "CA1"⟩ ⟨"t", "", ""⟩ false false ⟨"s1", "CA1"⟩ (by decide)
  have h3 := claim2_server_url_gating.2 ⟨[("c", ⟨"s1", [7]⟩)], [], [], ""⟩
    "c" "u" ⟨"s2", [7]⟩ ⟨"t", [], []⟩ false true ⟨"s1", [7]⟩ (by decide)
  refine ⟨?_, ?_, ?_, ?_, ?_, ?_⟩
  · have := h1.1; rw [this]; decide
  · have := h1.2; rw [this]; decide
  · have := h2.1; rw [this]; decide
  · have := h2.2; rw [this]; decide
  · have := h3.1; rw [this]; decide
  · have := h3.2; rw [this]; decide

/-- Claim C6: in both variants, when the target context's cluster name is
absent from the on-disk cluster mapping, the merge appends exactly one new
cluster entry under that name carrying the pasted cluster's server URL and
CA data verbatim, and the change list contains exactly one added-cluster
entry, which reports both fields. -/
theorem claim6_added_cluster :
    (∀ (cfg : V1.KubeConfig) (tc tu : String) (pc : V1.Cluster) (pu : V1.User) (nc us : Bool),
      V1.lookupCluster cfg.clusters tc = none →
      ((V1.merge cfg tc tu pc pu nc us).1).clusters = cfg.clusters ++ [⟨tc, pc⟩] ∧
      ((V1.merge cfg tc tu pc pu nc us).2).filter V1.isAddedCluster =
        [V1.Change.addedCluster tc (shorten pc.server)
          (shorten pc.certificateAuthorityData)]) ∧
    (∀ (cfg : V2.Config) (tc tu : String) (pc : V2.Cluster) (pu : V2.AuthInfo) (nc us : Bool),
      V2.mapLookup cfg.clusters tc = none →
      ((V2.merge cfg tc tu pc pu nc us).1).clusters = cfg.clusters ++ [(tc, pc)] ∧
      ((V2.merge cfg tc tu pc pu nc us).2).filter V2.isAddedCluster =
        [V2.Change.addedCluster tc pc.server
          (shortenBytes pc.certificateAuthorityData)]) := by
  constructor
  · intro cfg tc tu pc pu nc us h
    have hm := V1.mergeClusters_notFound tc pc (nc || us) cfg.clusters h
    have hu : (V1.mergeUsers tu pu cfg.users).2.filter V1.isAddedCluster = [] := by
      rw [List.filter_eq_nil_iff]
      intro c hc
      have huser := V1.mergeUsers_userChange tu pu cfg.users c hc
      cases c <;> simp_all [V1.isUserChange, V1.isAddedCluster]
    constructor
    · simp only [V1.merge, hm]
    · simp [V1.merge, List.filter_append, hm, hu, V1.isAddedCluster]
  · intro cfg tc tu pc pu nc us h
    have hm := V2.clusterMap_notFound cfg.clusters tc pc (us || nc) h
    have hu : (V2.mergeUsers cfg.authInfos tu pu).2.filter V2.isAddedCluster = [] := by
      rw [List.filter_eq_nil_iff]
      intro c hc
      have huser := V2.userMap_userChange cfg.authInfos tu pu c hc
      cases c <;> simp_all [V2.isUserChange, V2.isAddedCluster]
    constructor
    · simp only [V2.merge, hm]
    · simp [V2.merge, List.filter_append, hm, hu, V2.isAddedCluster]

/-- Witness for claim C6 at concrete inputs: merging into a document without
the target cluster name appends it and reports one added-cluster entry, in
both variants. -/
theorem claim6_added_cluster_witness :
    ((V1.merge ⟨"v1", "Config", [⟨"other", ⟨"s0", "CA0"⟩⟩], [], [], ""⟩
        "c" "u" ⟨"s2", "CA2"⟩ ⟨"t", "", ""⟩ false false).1).clusters =
      [⟨"other", ⟨"s0", "CA0"⟩⟩, ⟨"c", ⟨"s2", "CA2"⟩⟩] ∧
    ((V1.merge ⟨"v1", "Config", [⟨"other", ⟨"s0", "CA0"⟩⟩], [], [], ""⟩
        "c" "u" ⟨"s2", "CA2"⟩ ⟨"t", "", ""⟩ false false).2).filter V1.isAddedCluster =
      [V1.Change.addedCluster "c" "s2" "CA2"] ∧
    ((V2.merge ⟨[("other", ⟨"s0", [9]⟩)], [], [], ""⟩
        "c" "u" ⟨"s2", [1]⟩ ⟨"t", [], []⟩ false false).1).clusters =
      [("other", ⟨"s0", [9]⟩), ("c", ⟨"s2", [1]⟩)] ∧
    ((V2.merge ⟨[("other", ⟨"s0", [9]⟩)], [], [], ""⟩
        "c" "u" ⟨"s2", [1]⟩ ⟨"t", [], []⟩ false false).2).filter V2.isAddedCluster =
      [V2.Change.addedCluster "c" "s2" "AQ=="] := by
  have h1 := claim6_added_cluster.1 ⟨"v1", "Config", [⟨"other", ⟨"s0", "CA0"⟩⟩], [], [], ""⟩
    "c" "u" ⟨"s2", "CA2"⟩ ⟨"t", "", ""⟩ false false (by decide)
  have h2 := claim6_added_cluster.2 ⟨[("other", ⟨"s0", [9]⟩)], [], [], ""⟩
    "c" "u" ⟨"s2", [1]⟩ ⟨"t", [], []⟩ false false (by decide)
  refine ⟨?_, ?_, ?_, ?_⟩
  · have := h1.1; rw [this]; decide
  · have := h1.2; rw [this]; decide
  · have := h2.1; rw [this]; decide
  · have := h2.2; rw [this]; decide

/-- Claim C7: the report truncation maps strings of at most 15 characters
(including exactly 15) to themselves and longer strings (including 16) to
their first five characters, `"..."`, and their last five characters — hence
a 13-character rendering; binary fields are truncated after base64 encoding,
with empty binary data rendered as the `"<empty>"` placeholder; and stored
values are never truncated: after either variant's merge the target entries
hold the pasted user and the pasted CA data verbatim. -/
theorem claim7_truncation :
    (∀ s : String, s.length ≤ 15 → shorten s = s) ∧
    (∀ s : String, 15 < s.length →
      shorten s = (⟨s.data.take 5⟩ : String) ++ "..." ++ ⟨s.data.drop (s.data.length - 5)⟩) ∧
    (∀ s : String, 15 < s.length → (shorten s).length = 13) ∧
    shortenBytes [] = "<empty>" ∧
    (∀ bs : List Nat, bs ≠ [] → shortenBytes bs = shorten (base64Encode bs)) ∧
    (∀ (cfg : V1.KubeConfig) (tc tu : String) (pc : V1.Cluster) (pu : V1.User) (nc us : Bool),
      V1.lookupUser ((V1.merge cfg tc tu pc pu nc us).1).users tu = some pu ∧
      ∃ srv, V1.lookupCluster ((V1.merge cfg tc tu pc pu nc us).1).clusters tc =
        some ⟨srv, pc.certificateAuthorityData⟩) ∧
    (∀ (cfg : V2.Config) (tc tu : String) (pc : V2.Cluster) (pu : V2.AuthInfo) (nc us : Bool),
      V2.mapLookup ((V2.merge cfg tc tu pc pu nc us).1).authInfos tu = some pu ∧
      ∃ srv, V2.mapLookup ((V2.merge cfg tc tu pc pu nc us).1).clusters tc =
        some ⟨srv, pc.certificateAuthorityData⟩) := by
  refine ⟨?_, ?_, ?_, rfl, ?_, ?_, ?_⟩
  · intro s h
    rw [shorten, if_pos h]
  · intro s h
    rw [shorten, if_neg (by omega)]
  · intro s h
    have hd : 15 < s.data.length := h
    rw [shorten, if_neg (by omega)]
    rw [String.length_append, String.length_append]
    have h1 : (String.mk (s.data.take 5)).length = 5 := by
      show (s.data.take 5).length = 5
      rw [List.length_take]
      omega
    have h2 : (String.mk (s.data.drop (s.data.length - 5))).length = 5 := by
      show (s.data.drop (s.data.length - 5)).length = 5
      rw [List.length_drop]
      omega
    have h3 : ("..." : String).length = 3 := rfl
    omega
  · intro bs hbs
    rw [shortenBytes, if_neg hbs, shorten]
  · intro cfg tc tu pc pu nc us
    exact ⟨V1.mergeUsers_stored tu pu cfg.users,
      V1.mergeClusters_storedCA tc pc (nc || us) cfg.clusters⟩
  · intro cfg tc tu pc pu nc us
    exact ⟨V2.userMap_stored cfg.authInfos tu pu,
      V2.clusterMap_storedCA cfg.clusters tc pc (us || nc)⟩

/-- Witness for claim C7 at concrete inputs: a 15-character string is kept
whole, a 16-character string becomes `first5...last5`, and a nonempty binary
field is truncated after base64 encoding. -/
theorem claim7_truncation_witness :
    shorten "abcdefghijklmno" = "abcdefghijklmno" ∧
    shorten "abcdefghijklmnop" = "abcde" ++ "..." ++ "lmnop" ∧
    shortenBytes [1] = shorten (base64Encode [1]) := by
  refine ⟨claim7_truncation.1 "abcdefghijklmno" (by decide), ?_,
    claim7_truncation.2.2.2.2.1 [1] (by decide)⟩
  have h := claim7_truncation.2.1 "abcdefghijklmnop" (by decide)
  rw [h]; decide

/-- The no-change line never coincides with a bulleted change line. -/
theorem noChanges_ne_bullet (x : String) : ("No changes made." == ("- " ++ x)) = false := by
  rw [beq_eq_false_iff_ne]
  intro h
  have hd := congrArg (fun s => s.data.head?) h
  simp only at hd
  have hr : ("- " ++ x).data.head? = some '-' := rfl
  rw [hr] at hd
  exact absurd hd (by decide)

/-- No bulleted rendering of a change list contains the no-change line. -/
theorem contains_bullets_false {α : Type} (f : α → String) :
    ∀ l : List α, ((l.map (fun c => "- " ++ f c)).contains "No changes made.") = false := by
  intro l
  induction l with
  | nil => rfl
  | cons c rest ih =>
    rw [List.map_cons, List.contains_cons, noChanges_ne_bullet, ih]
    rfl

/-- Claim C8 (amended): both reporters print `No changes made.` exactly when
the change list is empty and otherwise print exactly the bulleted change
lines in production order; the merge engines produce all cluster changes
before all user changes with token, client certificate, client key in that
order within the user group — but within the cluster group the yaml variant
emits CA data before server while the clientcmd variant emits server before
CA data. -/
theorem claim8_report_order :
    (∀ ch : List V1.Change, (V1.reportLines ch).contains "No changes made." = ch.isEmpty) ∧
    (∀ ch : List V1.Change, ch ≠ [] →
      V1.reportLines ch =
        "Summary of changes:" :: ch.map (fun c => "- " ++ V1.renderChange c)) ∧
    (∀ ch : List V2.Change, (V2.reportLines ch).contains "No changes made." = ch.isEmpty) ∧
    (∀ ch : List V2.Change, ch ≠ [] →
      V2.reportLines ch =
        "Summary of changes:" :: ch.map (fun c => "- " ++ V2.renderChange c)) ∧
    (∀ (cfg : V1.KubeConfig) (tc tu : String) (pc : V1.Cluster) (pu : V1.User) (nc us : Bool),
      List.Pairwise (· ≤ ·) (((V1.merge cfg tc tu pc pu nc us).2).map V1.fieldRank)) ∧
    (∀ (cfg : V2.Config) (tc tu : String) (pc : V2.Cluster) (pu : V2.AuthInfo) (nc us : Bool),
      List.Pairwise (· ≤ ·) (((V2.merge cfg tc tu pc pu nc us).2).map V2.fieldRank)) := by
  refine ⟨?_, ?_, ?_, ?_, V1.merge_rank, V2.mergeMap_rank⟩
  · intro ch
    cases ch with
    | nil => decide
    | cons c rest =>
      have hr : V1.reportLines (c :: rest) =
          "Summary of changes:" :: (c :: rest).map (fun c => "- " ++ V1.renderChange c) := by
        rw [V1.reportLines, if_neg (by simp)]
      rw [hr, List.contains_cons, contains_bullets_false V1.renderChange]
      rw [show ("No changes made." == "Summary of changes:") = false from by decide,
        List.isEmpty_cons]
      rfl
  · intro ch h
    rw [V1.reportLines, if_neg h]
  · intro ch
    cases ch with
    | nil => decide
    | cons c rest =>
      have hr : V2.reportLines (c :: rest) =
          "Summary of changes:" :: (c :: rest).map (fun c => "- " ++ V2.renderChange c) := by
        rw [V2.reportLines, if_neg (by simp)]
      rw [hr, List.contains_cons, contains_bullets_false V2.renderChange]
      rw [show ("No changes made." == "Summary of changes:") = false from by decide,
        List.isEmpty_cons]
      rfl
  · intro ch h
    rw [V2.reportLines, if_neg h]

/-- Witness for claim C8 at concrete inputs: a nonempty change list is
printed as the header plus its bulleted entries, in both variants. -/
theorem claim8_report_order_witness :
    V1.reportLines [V1.Change.updatedClusterCA "c" "o" "n"] =
      ["Summary of changes:",
       "- Updated cluster \"c\" certificateAuthorityData from o to n"] ∧
    V2.reportLines [V2.Change.updatedClusterServer "c" "s1" "s2"] =
      ["Summary of changes:", "- Updated cluster \"c\" server from s1 to s2"] := by
  constructor
  · rw [claim8_report_order.2.1 [V1.Change.updatedClusterCA "c" "o" "n"] (by decide)]
    decide
  · rw [claim8_report_order.2.2.2.1 [V2.Change.updatedClusterServer "c" "s1" "s2"] (by decide)]
    decide

/-- Claim C8 counterexample: the clientcmd variant's merge emits the server
change before the CA change — at a concrete input where both fields differ
the change list starts with the server entry, violating the claimed
CA-before-server order (the mapped claimed ranks `[1, 0]` are not sorted). -/
theorem claim8_field_order_counterexample :
    (V2.merge ⟨[("c", ⟨"s1", []⟩)], [], [("u", ⟨"t", [], []⟩)], ""⟩ "c" "u"
        ⟨"s2", [1]⟩ ⟨"t", [], []⟩ false true).2 =
      [V2.Change.updatedClusterServer "c" "s1" "s2",
       V2.Change.updatedClusterCA "c" "<empty>" "AQ=="] ∧
    ¬ List.Pairwise (fun a b => a ≤ b)
      (((V2.merge ⟨[("c", ⟨"s1", []⟩)], [], [("u", ⟨"t", [], []⟩)], ""⟩ "c" "u"
          ⟨"s2", [1]⟩ ⟨"t", [], []⟩ false true).2).map V2.claimedRank) := by
  exact ⟨by decide, by decide⟩

/-- Claim C9: when no context of the pasted document references the resolved
pasted cluster's name, the fallback option list (restricted to contexts
referencing that name) is empty and both variants fail with the resolution
error instead of ever reaching the fallback selection prompt. -/
theorem claim9_resolution_error :
    (∀ (ctxs : List V1.NamedContext) (cn : String),
      (∀ c ∈ ctxs, c.context.cluster ≠ cn) →
      V1.resolvePastedContext ctxs cn = .resolutionError) ∧
    (∀ (ctxs : List (String × V2.Context)) (cn : String),
      (∀ p ∈ ctxs, (p : String × V2.Context).2.cluster ≠ cn) →
      V2.resolvePastedContext ctxs cn = .resolutionError) := by
  constructor
  · intro ctxs cn h
    have hf : ctxs.find? (fun c => c.context.cluster == cn) = none := by
      rw [List.find?_eq_none]
      intro c hc
      simp [h c hc]
    have hfil : ctxs.filter (fun c => c.context.cluster == cn) = [] := by
      rw [List.filter_eq_nil_iff]
      intro c hc
      simp [h c hc]
    simp [V1.resolvePastedContext, hf, hfil]
  · intro ctxs cn h
    have hf : ctxs.find? (fun p => p.2.cluster == cn) = none := by
      rw [List.find?_eq_none]
      intro p hp
      simp [h p hp]
    have hfil : ctxs.filter (fun p => p.2.cluster == cn) = [] := by
      rw [List.filter_eq_nil_iff]
      intro p hp
      simp [h p hp]
    simp [V2.resolvePastedContext, hf, hfil]

/-- Witness for claim C9 at concrete inputs: a pasted document whose only
context references a different cluster resolves to the fatal error in both
variants. -/
theorem claim9_resolution_error_witness :
    V1.resolvePastedContext [⟨"x", ⟨"other", "u"⟩⟩] "c" = .resolutionError ∧
    V2.resolvePastedContext [("x", ⟨"other", "u"⟩)] "c" = .resolutionError := by
  exact ⟨claim9_resolution_error.1 [⟨"x", ⟨"other", "u"⟩⟩] "c" (by decide),
    claim9_resolution_error.2 [("x", ⟨"other", "u"⟩)] "c" (by decide)⟩

/-- Claim C10: selecting the sentinel `"new context"` always takes the
creation branch — even when the document already holds a context literally
named `new context` — and any target returned by the update branch is named
by the selection, which the branch guarantees differs from the sentinel, so
an existing context named `new context` can never be resolved for update, in
both variants. -/
theorem claim10_new_context_sentinel :
    (∀ (cfg : V1.KubeConfig) (n1 n2 n3 : String),
      V1.resolveTarget cfg "new context" n1 n2 n3 =
        .created { cfg with contexts := cfg.contexts ++ [⟨n1, ⟨n2, n3⟩⟩] } ⟨n1, ⟨n2, n3⟩⟩) ∧
    (∀ (cfg : V1.KubeConfig) (sel n1 n2 n3 : String) (cfg2 : V1.KubeConfig)
       (c : V1.NamedContext),
      V1.resolveTarget cfg sel n1 n2 n3 = .selected cfg2 c →
      c.name = sel ∧ c.name ≠ "new context") ∧
    (∀ (cfg : V2.Config) (n1 n2 n3 : String),
      V2.resolveTarget cfg "new context" n1 n2 n3 =
        .created { cfg with contexts := V2.mapInsert cfg.contexts n1 ⟨n2, n3⟩ } n1) ∧
    (∀ (cfg : V2.Config) (sel n1 n2 n3 : String) (cfg2 : V2.Config) (tn : String),
      V2.resolveTarget cfg sel n1 n2 n3 = .selected cfg2 tn →
      tn = sel ∧ tn ≠ "new context") := by
  refine ⟨?_, ?_, ?_, ?_⟩
  · intro cfg n1 n2 n3
    rw [V1.resolveTarget, if_pos rfl]
  · intro cfg sel n1 n2 n3 cfg2 c h
    by_cases hs : sel = "new context"
    · rw [V1.resolveTarget, if_pos hs] at h
      simp at h
    · rw [V1.resolveTarget, if_neg hs] at h
      rcases hf : cfg.contexts.find? (fun c => c.name == sel) with _ | c'
      · rw [hf] at h; simp at h
      · rw [hf] at h
        simp only [V1.TargetOutcome.selected.injEq] at h
        obtain ⟨-, rfl⟩ := h
        have hp := List.find?_some hf
        have hname : c'.name = sel := by simpa using hp
        exact ⟨hname, by rw [hname]; exact hs⟩
  · intro cfg n1 n2 n3
    rw [V2.resolveTarget, if_pos rfl]
  · intro cfg sel n1 n2 n3 cfg2 tn h
    by_cases hs : sel = "new context"
    · rw [V2.resolveTarget, if_pos hs] at h
      simp at h
    · rw [V2.resolveTarget, if_neg hs] at h
      rcases hf : V2.mapLookup cfg.contexts sel with _ | c'
      · rw [hf] at h; simp at h
      · rw [hf] at h
        simp only [V2.TargetOutcome.selected.injEq] at h
        obtain ⟨-, rfl⟩ := h
        exact ⟨rfl, hs⟩

/-- Witness for claim C10 at concrete inputs: a document that already
contains a context literally named `new context` still goes down the
creation branch when the sentinel is selected, and resolving an ordinary
context for update yields a target whose name differs from the sentinel, in
both variants. -/
theorem claim10_new_context_sentinel_witness :
    V1.resolveTarget ⟨"v1", "Config", [], [⟨"new context", ⟨"cl", "us"⟩⟩], [], ""⟩
        "new context" "n" "c" "u" =
      .created ⟨"v1", "Config", [], [⟨"new context", ⟨"cl", "us"⟩⟩, ⟨"n", ⟨"c", "u"⟩⟩], [], ""⟩
        ⟨"n", ⟨"c", "u"⟩⟩ ∧
    ((⟨"prod", ⟨"cl", "us"⟩⟩ : V1.NamedContext).name = "prod" ∧
      (⟨"prod", ⟨"cl", "us"⟩⟩ : V1.NamedContext).name ≠ "new context") ∧
    V2.resolveTarget ⟨[], [("new context", ⟨"cl", "us"⟩)], [], ""⟩
        "new context" "n" "c" "u" =
      .created ⟨[], [("new context", ⟨"cl", "us"⟩), ("n", ⟨"c", "u"⟩)], [], ""⟩ "n" ∧
    ("prod" = "prod" ∧ "prod" ≠ "new context") := by
  refine ⟨?_, ?_, ?_, ?_⟩
  · rw [claim10_new_context_sentinel.1 ⟨"v1", "Config", [], [⟨"new context", ⟨"cl", "us"⟩⟩], [], ""⟩
      "n" "c" "u"]
    decide
  · exact claim10_new_context_sentinel.2.1
      ⟨"v1", "Config", [], [⟨"prod", ⟨"cl", "us"⟩⟩], [], ""⟩ "prod" "n" "c" "u"
      ⟨"v1", "Config", [], [⟨"prod", ⟨"cl", "us"⟩⟩], [], ""⟩ ⟨"prod", ⟨"cl", "us"⟩⟩ (by decide)
  · rw [claim10_new_context_sentinel.2.2.1 ⟨[], [("new context", ⟨"cl", "us"⟩)], [], ""⟩
      "n" "c" "u"]
    decide
  · exact claim10_new_context_sentinel.2.2.2
      ⟨[], [("prod", ⟨"cl", "us"⟩)], [], ""⟩ "prod" "n" "c" "u"
      ⟨[], [("prod", ⟨"cl", "us"⟩)], [], ""⟩ "prod" (by decide)
